import Mathlib

/-!
# Verification of the LKService time-registration and payroll engine

A shallow embedding, over `ℚ` and `ℕ`, of the core computational parts of the
LKService repository:

* `app/services/time_calculator.py` — interval splitting by the norm window,
  the overtime day/night window and the Sunday noon boundary;
* `app/services/call_out_detector.py` — call-out eligibility and the
  application of the fixed call-out payment;
* `app/services/overtime_calculator.py` — the weekly overtime engine
  (37-hour norm, cumulative hourly tiers, per-entry time-of-day splits);
* `app/routers/danlon_oauth.py` and `app/services/danlon_api.py` — the
  pay-part construction of the sync endpoint and its GraphQL serialization;
* the disconnect/revoke control flow of `app/routers/danlon_oauth.py`.

Python `float` values are modelled as rationals; clock times are modelled as
minutes since midnight (`ℕ`).  Python's builtin `round` (round half to even,
a.k.a. banker's rounding) is modelled by `pyRound`.
-/

/-- Python's builtin `round` to an integer: round half to even. -/
def pyRound (q : ℚ) : ℤ :=
  let f : ℤ := ⌊q⌋
  let r : ℚ := q - f
  if r < 1/2 then f
  else if 1/2 < r then f + 1
  else if f % 2 = 0 then f else f + 1

/-- Python `round(x, 2)`. -/
def round2 (q : ℚ) : ℚ := (pyRound (q * 100) : ℚ) / 100

/-- Python `round(x, 4)`. -/
def round4 (q : ℚ) : ℚ := (pyRound (q * 10000) : ℚ) / 10000

/-! ## `app/services/time_calculator.py` -/

/-- Norm time start, 07:00, in minutes since midnight. -/
def NORM_START : ℕ := 420

/-- Norm time end, 17:00. -/
def NORM_END : ℕ := 1020

/-- Overtime day period start, 06:00. -/
def OT_DAY_START : ℕ := 360

/-- Overtime day period end, 18:00. -/
def OT_DAY_END : ℕ := 1080

/-- Sunday noon boundary, 12:00. -/
def SUNDAY_NOON : ℕ := 720

/-- `minutes_to_hours`: convert minutes to decimal hours. -/
def minutes_to_hours (minutes : ℕ) : ℚ := (minutes : ℚ) / 60

/-- `calculate_time_segments`: hours within the norm window 07:00-17:00 and
outside it.  The source returns `(0.0, 0.0)` when `end <= start`
("shouldn't happen in this data"); it does not raise. -/
def calculate_time_segments (start_t end_t : ℕ) : ℚ × ℚ :=
  if end_t ≤ start_t then (0, 0)
  else
    let total_minutes := end_t - start_t
    let overlap_start := max start_t NORM_START
    let overlap_end := min end_t NORM_END
    let norm_minutes := if overlap_start < overlap_end then overlap_end - overlap_start else 0
    let outside_minutes := total_minutes - norm_minutes
    (minutes_to_hours norm_minutes, minutes_to_hours outside_minutes)

/-- `split_time_by_boundary`: split a period at a boundary time.  Returns
`(0.0, 0.0)` when `end <= start`; it does not raise. -/
def split_time_by_boundary (start_t end_t boundary : ℕ) : ℚ × ℚ :=
  if end_t ≤ start_t then (0, 0)
  else
    let total_minutes := end_t - start_t
    if end_t ≤ boundary then (minutes_to_hours total_minutes, 0)
    else if boundary ≤ start_t then (0, minutes_to_hours total_minutes)
    else (minutes_to_hours (boundary - start_t), minutes_to_hours (end_t - boundary))

/-- `calculate_overtime_day_night_split`: hours in the 06:00-18:00 day period
versus the night period.  Returns `(0.0, 0.0)` when `end <= start`. -/
def calculate_overtime_day_night_split (start_t end_t : ℕ) : ℚ × ℚ :=
  if end_t ≤ start_t then (0, 0)
  else
    let total_minutes := end_t - start_t
    let day_overlap_start := max start_t OT_DAY_START
    let day_overlap_end := min end_t OT_DAY_END
    let day_minutes := if day_overlap_start < day_overlap_end then day_overlap_end - day_overlap_start else 0
    let night_minutes := total_minutes - day_minutes
    (minutes_to_hours day_minutes, minutes_to_hours night_minutes)

/-- `calculate_sunday_noon_split`: hours before and after 12:00. -/
def calculate_sunday_noon_split (start_t end_t : ℕ) : ℚ × ℚ :=
  split_time_by_boundary start_t end_t SUNDAY_NOON

/-! ## `app/models/schemas.py` (the fields the engine reads) -/

/-- `DayType` from `schemas.py`. -/
inductive DayType where
  | Weekday
  | Saturday
  | Sunday
  deriving DecidableEq, Repr

/-- `TimeEntry`: one contiguous work interval.  Times are minutes since
midnight; presentation-only fields (activity, case number, norm segments)
are omitted as no claim reads them. -/
structure TimeEntry where
  start_time : ℕ
  end_time : ℕ
  total_hours : ℚ
  deriving DecidableEq, Repr

/-- `DailyRecord`: the per-(worker, date) record consumed by the overtime
engine.  `date` is an abstract day ordinal; presentation-only fields
(day name, week number, norm segments, absent type) are omitted as no
claim reads them. -/
structure DailyRecord where
  worker_name : String
  date : ℕ
  day_type : DayType
  is_day_off : Bool
  total_hours : ℚ
  credited_hours : ℚ
  entries : List TimeEntry
  deriving DecidableEq, Repr

/-- `OvertimeBreakdown`: the eleven pay buckets. -/
structure OvertimeBreakdown where
  ot_weekday_hour_1_2 : ℚ := 0
  ot_weekday_hour_3_4 : ℚ := 0
  ot_weekday_hour_5_plus : ℚ := 0
  ot_weekday_scheduled_day : ℚ := 0
  ot_weekday_scheduled_night : ℚ := 0
  ot_dayoff_day : ℚ := 0
  ot_dayoff_night : ℚ := 0
  ot_saturday_day : ℚ := 0
  ot_saturday_night : ℚ := 0
  ot_sunday_before_noon : ℚ := 0
  ot_sunday_after_noon : ℚ := 0
  deriving DecidableEq, Repr

/-- Sum of all eleven buckets of an `OvertimeBreakdown`. -/
def OvertimeBreakdown.total (b : OvertimeBreakdown) : ℚ :=
  b.ot_weekday_hour_1_2 + b.ot_weekday_hour_3_4 + b.ot_weekday_hour_5_plus +
  b.ot_weekday_scheduled_day + b.ot_weekday_scheduled_night +
  b.ot_dayoff_day + b.ot_dayoff_night +
  b.ot_saturday_day + b.ot_saturday_night +
  b.ot_sunday_before_noon + b.ot_sunday_after_noon

/-- Sum of the three weekday hourly-tier buckets. -/
def OvertimeBreakdown.tierTotal (b : OvertimeBreakdown) : ℚ :=
  b.ot_weekday_hour_1_2 + b.ot_weekday_hour_3_4 + b.ot_weekday_hour_5_plus

/-- Sum of the two weekday time-of-day buckets. -/
def OvertimeBreakdown.schedTotal (b : OvertimeBreakdown) : ℚ :=
  b.ot_weekday_scheduled_day + b.ot_weekday_scheduled_night

/-- `DailyOutput`: the per-day output row, restricted to the fields the
claims read (presentation strings and the echoed entries are omitted). -/
structure DailyOutput where
  worker : String
  date : ℕ
  total_hours : ℚ
  normal_hours : ℚ
  weekly_total : ℚ
  overtime_breakdown : OvertimeBreakdown
  overtime_1 : ℚ
  overtime_2 : ℚ
  overtime_3 : ℚ
  has_call_out_qualifying_time : Bool
  call_out_payment : ℚ
  call_out_applied : Bool
  deriving DecidableEq, Repr

/-- `WeeklySummary`, restricted to the fields the claims read. -/
structure WeeklySummary where
  worker_name : String
  total_hours : ℚ
  normal_hours : ℚ
  overtime_breakdown : OvertimeBreakdown
  overtime_1 : ℚ
  overtime_2 : ℚ
  overtime_3 : ℚ
  deriving DecidableEq, Repr

/-! ## `app/services/call_out_detector.py` -/

/-- `CALL_OUT_PAYMENT_AMOUNT = 750.0`. -/
def CALL_OUT_PAYMENT_AMOUNT : ℚ := 750

/-- `CALL_OUT_MORNING_END = time(7, 0)` in minutes. -/
def CALL_OUT_MORNING_END : ℕ := 420

/-- `CALL_OUT_EVENING_START = time(15, 30)` in minutes. -/
def CALL_OUT_EVENING_START : ℕ := 930

/-- `CALL_OUT_CONTINUATION_START = time(16, 0)` in minutes. -/
def CALL_OUT_CONTINUATION_START : ℕ := 960

/-- Ordering of entries by start time, used to model Python's
`sorted(record.entries, key=lambda e: e.start_time)`. -/
def entryLE (a b : TimeEntry) : Prop := a.start_time ≤ b.start_time

instance : DecidableRel entryLE := fun a b => Nat.decLe a.start_time b.start_time

instance : IsTotal TimeEntry entryLE := ⟨fun a b => Nat.le_total a.start_time b.start_time⟩

instance : IsTrans TimeEntry entryLE :=
  ⟨fun _ _ _ hab hbc => Nat.le_trans hab hbc⟩

/-- The loop body of `detect_call_out_eligibility`: `seen` is the prefix of
already-visited entries of the sorted list (`sorted_entries[:i]`), `rest` the
entries still to visit.  An entry starting before 07:00 returns `True`; an
entry starting at/after 15:30 returns `True` unless it starts at/after 16:00
and some previous entry ended at/after 15:30 (continuation), in which case
the loop continues. -/
def detectAux : List TimeEntry → List TimeEntry → Bool
  | _, [] => false
  | seen, e :: rest =>
    if e.start_time < CALL_OUT_MORNING_END then true
    else if CALL_OUT_EVENING_START ≤ e.start_time then
      if CALL_OUT_CONTINUATION_START ≤ e.start_time then
        if seen.any (fun p => decide (CALL_OUT_EVENING_START ≤ p.end_time)) then
          detectAux (seen ++ [e]) rest
        else true
      else true
    else detectAux (seen ++ [e]) rest

/-- `detect_call_out_eligibility`: does a day (given by its entries) qualify
for call-out payment? -/
def detect_call_out_eligibility (entries : List TimeEntry) : Bool :=
  detectAux [] (List.insertionSort entryLE entries)

/-- `apply_call_out_payment(outputs, call_out_selections)` with the optional
`records` argument left at its default `None` (the claimed two-argument call
form), so the overtime-recalculation branch guarded by
`if date_key in records_by_date` is never entered.  `call_out_selections` is
modelled as a total map from date to `Bool`, matching
`call_out_selections.get(date_key, False)`. -/
def apply_call_out_payment (outputs : List DailyOutput)
    (call_out_selections : ℕ → Bool) : List DailyOutput :=
  outputs.map fun output =>
    if call_out_selections output.date then
      if output.has_call_out_qualifying_time then
        { output with call_out_payment := CALL_OUT_PAYMENT_AMOUNT, call_out_applied := true }
      else
        { output with call_out_payment := 0, call_out_applied := false }
    else
      { output with call_out_payment := 0, call_out_applied := false }

/-! ## `app/services/overtime_calculator.py` -/

/-- `WEEKLY_NORM_HOURS = 37.0`. -/
def WEEKLY_NORM_HOURS : ℚ := 37

/-- `apply_hourly_thresholds`: allocate overtime hours into the cumulative
weekly tiers `[0,2)`, `[2,4)`, `[4,∞)` starting from the already-used count. -/
def apply_hourly_thresholds (total_overtime_hours weekly_ot_hours_used : ℚ) :
    ℚ × ℚ × ℚ :=
  let remaining := total_overtime_hours
  let current_ot_count := weekly_ot_hours_used
  let step1 : ℚ × ℚ × ℚ :=
    if current_ot_count < 2 ∧ 0 < remaining then
      let available := 2 - current_ot_count
      let allocated := min remaining available
      (allocated, remaining - allocated, current_ot_count + allocated)
    else (0, remaining, current_ot_count)
  let hours_1_2 := step1.1
  let remaining1 := step1.2.1
  let count1 := step1.2.2
  let step2 : ℚ × ℚ × ℚ :=
    if count1 < 4 ∧ 0 < remaining1 then
      let available := 4 - count1
      let allocated := min remaining1 available
      (allocated, remaining1 - allocated, count1 + allocated)
    else (0, remaining1, count1)
  let hours_3_4 := step2.1
  let remaining2 := step2.2.1
  let hours_5_plus := if 0 < remaining2 then remaining2 else 0
  (hours_1_2, hours_3_4, hours_5_plus)

/-- `categorize_entry_overtime`: bucket a single entry by day type and time of
day.  As in the source, `entry_hours` and `weekly_ot_hours_used` are accepted
but not read by the body. -/
def categorize_entry_overtime (entry_start entry_end : ℕ) (entry_hours : ℚ)
    (day_type : DayType) (is_day_off : Bool) (weekly_ot_hours_used : ℚ) :
    OvertimeBreakdown :=
  match day_type with
  | DayType.Sunday =>
    let s := calculate_sunday_noon_split entry_start entry_end
    { ot_sunday_before_noon := s.1, ot_sunday_after_noon := s.2 }
  | DayType.Saturday =>
    let s := calculate_overtime_day_night_split entry_start entry_end
    { ot_saturday_day := s.1, ot_saturday_night := s.2 }
  | DayType.Weekday =>
    let s := calculate_overtime_day_night_split entry_start entry_end
    if is_day_off then { ot_dayoff_day := s.1, ot_dayoff_night := s.2 }
    else { ot_weekday_scheduled_day := s.1, ot_weekday_scheduled_night := s.2 }

/-- The body of the entry loop in the ordinary-weekday branch of
`categorize_day_overtime`: accumulate the time-of-day split of each entry. -/
def sched_step (day_type : DayType) (is_day_off : Bool) (weekly_ot_hours_used : ℚ)
    (acc : ℚ × ℚ) (entry : TimeEntry) : ℚ × ℚ :=
  let eb := categorize_entry_overtime entry.start_time entry.end_time
    entry.total_hours day_type is_day_off weekly_ot_hours_used
  (acc.1 + eb.ot_weekday_scheduled_day, acc.2 + eb.ot_weekday_scheduled_night)

/-- The body of the entry loop in the Saturday/Sunday/day-off branch of
`categorize_day_overtime`: accumulate every non-tier bucket of the entry's
breakdown into the day's breakdown. -/
def entry_accumulate (day_type : DayType) (is_day_off : Bool) (weekly_ot_hours_used : ℚ)
    (acc : OvertimeBreakdown) (entry : TimeEntry) : OvertimeBreakdown :=
  let eb := categorize_entry_overtime entry.start_time entry.end_time
    entry.total_hours day_type is_day_off weekly_ot_hours_used
  { acc with
    ot_weekday_scheduled_day := acc.ot_weekday_scheduled_day + eb.ot_weekday_scheduled_day,
    ot_weekday_scheduled_night := acc.ot_weekday_scheduled_night + eb.ot_weekday_scheduled_night,
    ot_dayoff_day := acc.ot_dayoff_day + eb.ot_dayoff_day,
    ot_dayoff_night := acc.ot_dayoff_night + eb.ot_dayoff_night,
    ot_saturday_day := acc.ot_saturday_day + eb.ot_saturday_day,
    ot_saturday_night := acc.ot_saturday_night + eb.ot_saturday_night,
    ot_sunday_before_noon := acc.ot_sunday_before_noon + eb.ot_sunday_before_noon,
    ot_sunday_after_noon := acc.ot_sunday_after_noon + eb.ot_sunday_after_noon }

/-- `categorize_day_overtime`: returns `(day_breakdown, norm_hours_this_day,
ot_hours_this_day)`. -/
def categorize_day_overtime (record : DailyRecord)
    (weekly_norm_used weekly_ot_hours_used : ℚ) :
    OvertimeBreakdown × ℚ × ℚ :=
  let day_total := record.total_hours + record.credited_hours
  let available_norm := WEEKLY_NORM_HOURS - weekly_norm_used
  let norm_hours := min day_total (max 0 available_norm)
  let ot_hours := max 0 (day_total - norm_hours)
  if ot_hours = 0 then ({}, norm_hours, 0)
  else if record.total_hours = 0 ∧ 0 < record.credited_hours then
    let t := apply_hourly_thresholds ot_hours weekly_ot_hours_used
    ({ ot_weekday_hour_1_2 := t.1, ot_weekday_hour_3_4 := t.2.1,
       ot_weekday_hour_5_plus := t.2.2 }, norm_hours, ot_hours)
  else if record.day_type = DayType.Weekday ∧ record.is_day_off = false then
    let t := apply_hourly_thresholds ot_hours weekly_ot_hours_used
    let sched := record.entries.foldl
      (sched_step record.day_type record.is_day_off weekly_ot_hours_used)
      ((0 : ℚ), (0 : ℚ))
    ({ ot_weekday_hour_1_2 := t.1, ot_weekday_hour_3_4 := t.2.1,
       ot_weekday_hour_5_plus := t.2.2,
       ot_weekday_scheduled_day := sched.1,
       ot_weekday_scheduled_night := sched.2 }, norm_hours, ot_hours)
  else
    let bd := record.entries.foldl
      (entry_accumulate record.day_type record.is_day_off weekly_ot_hours_used)
      ({} : OvertimeBreakdown)
    (bd, norm_hours, ot_hours)

/-- `merge_overtime_breakdowns`: field-wise sum. -/
def merge_overtime_breakdowns (a b : OvertimeBreakdown) : OvertimeBreakdown :=
  { ot_weekday_hour_1_2 := a.ot_weekday_hour_1_2 + b.ot_weekday_hour_1_2
    ot_weekday_hour_3_4 := a.ot_weekday_hour_3_4 + b.ot_weekday_hour_3_4
    ot_weekday_hour_5_plus := a.ot_weekday_hour_5_plus + b.ot_weekday_hour_5_plus
    ot_weekday_scheduled_day := a.ot_weekday_scheduled_day + b.ot_weekday_scheduled_day
    ot_weekday_scheduled_night := a.ot_weekday_scheduled_night + b.ot_weekday_scheduled_night
    ot_dayoff_day := a.ot_dayoff_day + b.ot_dayoff_day
    ot_dayoff_night := a.ot_dayoff_night + b.ot_dayoff_night
    ot_saturday_day := a.ot_saturday_day + b.ot_saturday_day
    ot_saturday_night := a.ot_saturday_night + b.ot_saturday_night
    ot_sunday_before_noon := a.ot_sunday_before_noon + b.ot_sunday_before_noon
    ot_sunday_after_noon := a.ot_sunday_after_noon + b.ot_sunday_after_noon }

/-- `calculate_legacy_overtime_values`: back-project the breakdown onto the
legacy three tiers. -/
def calculate_legacy_overtime_values (breakdown : OvertimeBreakdown) : ℚ × ℚ × ℚ :=
  (breakdown.ot_weekday_hour_1_2,
   breakdown.ot_weekday_hour_3_4,
   breakdown.ot_weekday_hour_5_plus +
     breakdown.ot_saturday_day + breakdown.ot_saturday_night +
     breakdown.ot_sunday_before_noon + breakdown.ot_sunday_after_noon +
     breakdown.ot_dayoff_day + breakdown.ot_dayoff_night)

/-- Accumulator of the per-week loop of `calculate_weekly_overtime`. -/
structure WeekAcc where
  weekly_total : ℚ
  weekly_norm_used : ℚ
  weekly_ot_hours_used : ℚ
  weekly_breakdown : OvertimeBreakdown
  outputs : List DailyOutput

/-- One iteration of the `for record in records` loop of
`calculate_weekly_overtime`. -/
def week_step (acc : WeekAcc) (record : DailyRecord) : WeekAcc :=
  let day_total := record.total_hours
  let r := categorize_day_overtime record acc.weekly_norm_used acc.weekly_ot_hours_used
  let day_breakdown := r.1
  let day_norm := r.2.1
  let day_ot := r.2.2
  let new_total := acc.weekly_total + day_total
  let legacy := calculate_legacy_overtime_values day_breakdown
  { weekly_total := new_total
    weekly_norm_used := acc.weekly_norm_used + day_norm
    weekly_ot_hours_used := acc.weekly_ot_hours_used + day_ot
    weekly_breakdown := merge_overtime_breakdowns acc.weekly_breakdown day_breakdown
    outputs := acc.outputs ++
      [{ worker := record.worker_name
         date := record.date
         total_hours := round2 day_total
         normal_hours := round2 day_norm
         weekly_total := round2 new_total
         overtime_breakdown := day_breakdown
         overtime_1 := round2 legacy.1
         overtime_2 := round2 legacy.2.1
         overtime_3 := round2 legacy.2.2
         has_call_out_qualifying_time := detect_call_out_eligibility record.entries
         call_out_payment := 0
         call_out_applied := false }] }

/-- `calculate_weekly_overtime`: process one worker-week (records already
date-sorted by `group_records_by_week`).  Returns `none` on an empty list,
mirroring `if not records: return None, []`. -/
def calculate_weekly_overtime (records : List DailyRecord) :
    Option (WeeklySummary × List DailyOutput) :=
  match records with
  | [] => none
  | first :: _ =>
    let acc := records.foldl week_step
      { weekly_total := 0, weekly_norm_used := 0, weekly_ot_hours_used := 0,
        weekly_breakdown := {}, outputs := [] }
    let legacy := calculate_legacy_overtime_values acc.weekly_breakdown
    some ({ worker_name := first.worker_name
            total_hours := round2 acc.weekly_total
            normal_hours := round2 acc.weekly_norm_used
            overtime_breakdown := acc.weekly_breakdown
            overtime_1 := round2 legacy.1
            overtime_2 := round2 legacy.2.1
            overtime_3 := round2 legacy.2.2 }, acc.outputs)

/-! ## Sync pay-part construction (`app/routers/danlon_oauth.py`,
`app/services/danlon_api.py`) -/

/-- A pay-part as assembled by the sync endpoint: `units`/`rate`/`amount`
still carry the rational hour/DKK values. -/
structure PayPart where
  employeeId : String
  code : String
  units : Option ℚ := none
  rate : Option ℚ := none
  amount : Option ℚ := none
  deriving DecidableEq, Repr

/-- A pay-part as serialized into the GraphQL mutation literal by
`create_payparts`: Danløn types `units`, `rate` and `amount` as `Int`. -/
structure GqlPayPart where
  employeeId : String
  code : String
  units : Option ℤ := none
  rate : Option ℤ := none
  amount : Option ℤ := none
  deriving DecidableEq, Repr

/-- `_paypart_to_gql` inside `create_payparts`: hours become centesimal
integers `int(round(units * 100))`; rate and amount become whole integers
`int(round(x))`. -/
def paypart_to_gql (pp : PayPart) : GqlPayPart :=
  { employeeId := pp.employeeId
    code := pp.code
    units := pp.units.map (fun u => pyRound (u * 100))
    rate := pp.rate.map (fun r => pyRound r)
    amount := pp.amount.map (fun a => pyRound a) }

/-- `_sum_overtime`: total overtime hours across all eleven breakdown
categories (the router sums the same eleven keys as
`OvertimeBreakdown.total`). -/
def sum_overtime (breakdown : OvertimeBreakdown) : ℚ :=
  breakdown.ot_weekday_hour_1_2 + breakdown.ot_weekday_hour_3_4 +
  breakdown.ot_weekday_hour_5_plus +
  breakdown.ot_weekday_scheduled_day + breakdown.ot_weekday_scheduled_night +
  breakdown.ot_dayoff_day + breakdown.ot_dayoff_night +
  breakdown.ot_saturday_day + breakdown.ot_saturday_night +
  breakdown.ot_sunday_before_noon + breakdown.ot_sunday_after_noon

/-- The three-stage employee lookup of `sync_to_danlon`: live-list name
match, then the explicit mapping row, then the fallback row.  The two
case-insensitive dictionaries are abstracted as partial maps. -/
def resolve_employee (employee_by_name employee_id_by_ftz_name : String → Option String)
    (fallback_employee_id : Option String) (worker : String) : Option String :=
  match employee_by_name worker with
  | some found => some found
  | none =>
    match employee_id_by_ftz_name worker with
    | some mapped => some mapped
    | none => fallback_employee_id

/-- The pay-parts appended for one `DailyOutput` row by step 5 of
`sync_to_danlon`: skip empty rows, resolve the employee, then emit a
normal-hours part (`units = round(normal_hours, 4)`), an overtime part
(`units = round(_sum_overtime(breakdown), 4)`) and a call-out part
(`amount = round(call_out_payment, 2)`), each only when positive. -/
def build_row_payparts (resolve : String → Option String)
    (normal_code overtime_code callout_code : String) (row : DailyOutput) :
    List PayPart :=
  let normal_hours := row.normal_hours
  let total_overtime := round4 (sum_overtime row.overtime_breakdown)
  if normal_hours ≤ 0 ∧ total_overtime ≤ 0 ∧ row.call_out_applied = false then []
  else
    match resolve row.worker with
    | none => []
    | some employee_id =>
      (if 0 < normal_hours then
        [{ employeeId := employee_id, code := normal_code,
           units := some (round4 normal_hours) }]
       else []) ++
      (if 0 < total_overtime then
        [{ employeeId := employee_id, code := overtime_code,
           units := some total_overtime }]
       else []) ++
      (if row.call_out_applied = true ∧ 0 < row.call_out_payment then
        [{ employeeId := employee_id, code := callout_code,
           amount := some (round2 row.call_out_payment) }]
       else [])

/-- The pay-parts of one row as they appear on the wire: the router's list
serialized by `create_payparts`. -/
def sync_row_wire_payparts (resolve : String → Option String)
    (normal_code overtime_code callout_code : String) (row : DailyOutput) :
    List GqlPayPart :=
  (build_row_payparts resolve normal_code overtime_code callout_code row).map paypart_to_gql

/-! ## Disconnect / revoke (`app/routers/danlon_oauth.py`) -/

/-- The locally stored `OAuthToken` row for one `(user, company)` key. -/
structure OAuthTokenRow where
  access_token : String
  refresh_token : String
  deriving DecidableEq, Repr

/-- Outcome of the `POST /danlon/disconnect` endpoint. -/
inductive DisconnectResponse where
  | ok
  | missing_connection
  | revoke_failed
  deriving DecidableEq, Repr

/-- The control flow of the `disconnect` route: 404 when no row is stored;
otherwise `revoke_token` is awaited inside a `try` block and
`delete_tokens` runs after it, so when the upstream revoke fails (the
service raises on any non-200 response) the `except` branch re-raises a
500 and the local row is left in place.  `revoke_succeeds` abstracts the
upstream revoke outcome; the second component is the stored row after the
request. -/
def disconnect (stored : Option OAuthTokenRow) (revoke_succeeds : Bool) :
    DisconnectResponse × Option OAuthTokenRow :=
  match stored with
  | none => (DisconnectResponse.missing_connection, none)
  | some row =>
    if revoke_succeeds then (DisconnectResponse.ok, none)
    else (DisconnectResponse.revoke_failed, some row)

/-! ## Auxiliary definitions used by the statements -/

/-- The length in hours of the interval `[s, e)` as the splitters measure it:
`0` when `e ≤ s` (their silent-zero guard), else `(e − s)/60`. -/
def entry_span (start_t end_t : ℕ) : ℚ :=
  if start_t < end_t then minutes_to_hours (end_t - start_t) else 0

/-- Total interval length, in hours, of a list of entries. -/
def entries_span_hours (entries : List TimeEntry) : ℚ :=
  (entries.map (fun e => entry_span e.start_time e.end_time)).sum

/-- The continuation condition of the call-out rule as the spec words it:
some entry of the day with a strictly earlier start ended at or after
15:30. -/
def call_out_suppressed (entries : List TimeEntry) (e : TimeEntry) : Prop :=
  ∃ p ∈ entries, p.start_time < e.start_time ∧ CALL_OUT_EVENING_START ≤ p.end_time

/-- One entry qualifies the day for call-out, as the spec words it: it
starts before 07:00, or it starts at or after 15:30 and — only when it
starts at or after 16:00 — it is not suppressed by the continuation rule. -/
def call_out_entry_qualifies (entries : List TimeEntry) (e : TimeEntry) : Prop :=
  e.start_time < CALL_OUT_MORNING_END ∨
    (CALL_OUT_EVENING_START ≤ e.start_time ∧
      (e.start_time < CALL_OUT_CONTINUATION_START ∨ ¬ call_out_suppressed entries e))

/-- The spec's characterization of call-out eligibility of a day. -/
def call_out_spec (entries : List TimeEntry) : Prop :=
  ∃ e ∈ entries, call_out_entry_qualifies entries e

/-! ## Concrete inputs used by counterexamples and witnesses -/

/-- An ordinary weekday with a single 07:00-15:00 entry of 8 hours. -/
def wd8 (d : ℕ) : DailyRecord :=
  { worker_name := "w", date := d, day_type := DayType.Weekday, is_day_off := false,
    total_hours := 8, credited_hours := 0,
    entries := [{ start_time := 420, end_time := 900, total_hours := 8 }] }

/-- A five-day week of 8 hours each: 40 hours, 3 of them overtime, all
worked inside 07:00-15:00. -/
def wk_five_8h : List DailyRecord := [wd8 1, wd8 2, wd8 3, wd8 4, wd8 5]

/-- A Saturday with a single 10:00-18:00 entry of 8 hours. -/
def satRec : DailyRecord :=
  { worker_name := "w", date := 6, day_type := DayType.Saturday, is_day_off := false,
    total_hours := 8, credited_hours := 0,
    entries := [{ start_time := 600, end_time := 1080, total_hours := 8 }] }

/-- Four 8-hour weekdays followed by the 8-hour Saturday: the Saturday sees
32 norm hours already used, so 5 of its 8 hours are norm and 3 are
overtime. -/
def wk_sat : List DailyRecord := [wd8 1, wd8 2, wd8 3, wd8 4, satRec]

/-- A one-day week whose worked total is exactly the 37-hour norm. -/
def wk37 : List DailyRecord :=
  [{ worker_name := "w", date := 1, day_type := DayType.Weekday, is_day_off := false,
     total_hours := 37, credited_hours := 0, entries := [] }]

/-- The weekly summary produced for `wk37`. -/
def wk37_summary : WeeklySummary :=
  { worker_name := "w", total_hours := 37, normal_hours := 37,
    overtime_breakdown := {}, overtime_1 := 0, overtime_2 := 0, overtime_3 := 0 }

/-- The daily outputs produced for `wk37`. -/
def wk37_outputs : List DailyOutput :=
  [{ worker := "w", date := 1, total_hours := 37, normal_hours := 37,
     weekly_total := 37, overtime_breakdown := {},
     overtime_1 := 0, overtime_2 := 0, overtime_3 := 0,
     has_call_out_qualifying_time := false,
     call_out_payment := 0, call_out_applied := false }]

/-- A daily-output row as the sync endpoint reads it from the preview
cache: 7.5 normal hours, 2 overtime hours in the first tier, and an
applied 750 DKK call-out. -/
def row_c1 : DailyOutput :=
  { worker := "alice", date := 1, total_hours := 47/2, normal_hours := 15/2,
    weekly_total := 47/2, overtime_breakdown := { ot_weekday_hour_1_2 := 2 },
    overtime_1 := 2, overtime_2 := 0, overtime_3 := 0,
    has_call_out_qualifying_time := true,
    call_out_payment := 750, call_out_applied := true }

/-- The overtime hours the engine assigns to a day, as a standalone
formula: `max(0, day_total - norm_allocated)` where `day_total` is worked
plus credited hours and `norm_allocated = min(day_total, max(0, 37 - norm_used))`. -/
def day_ot_value (record : DailyRecord) (weekly_norm_used : ℚ) : ℚ :=
  max 0 ((record.total_hours + record.credited_hours) -
    min (record.total_hours + record.credited_hours)
      (max 0 (WEEKLY_NORM_HOURS - weekly_norm_used)))

/-- A resolver that maps every worker to the Danløn employee id `E1`
(used by concrete witnesses). -/
def resolve_c1 : String → Option String := fun _ => some "E1"

/-! ## Helper lemmas -/

theorem pyRound_le_intCast (q : ℚ) (n : ℤ) (h : q ≤ (n : ℚ)) : pyRound q ≤ n := by
  have hf : ⌊q⌋ ≤ n := by
    have := Int.floor_le_floor h
    simpa using this
  simp only [pyRound]
  rcases lt_or_eq_of_le hf with hlt | heq
  · split_ifs <;> omega
  · have hq : q - (⌊q⌋ : ℚ) ≤ 0 := by
      rw [heq]
      linarith
    have hhalf : q - (⌊q⌋ : ℚ) < 1/2 := by linarith
    simp only [hhalf, if_pos]
    omega

theorem round2_le_of_le (q : ℚ) (n : ℤ) (h : q ≤ (n : ℚ)) : round2 q ≤ (n : ℚ) := by
  unfold round2
  have h100 : q * 100 ≤ ((100 * n : ℤ) : ℚ) := by push_cast; linarith
  have := pyRound_le_intCast (q * 100) (100 * n) h100
  have hc : (pyRound (q * 100) : ℚ) ≤ ((100 * n : ℤ) : ℚ) := by exact_mod_cast this
  push_cast at hc
  linarith

theorem minutes_to_hours_add (a b : ℕ) :
    minutes_to_hours a + minutes_to_hours b = minutes_to_hours (a + b) := by
  unfold minutes_to_hours
  push_cast
  ring

/-! ## Claim C9 -/

/-- Claim C9: for every interval `[s, e)` with `e > s` and every boundary
time `b`, the two halves returned by `split_time_by_boundary` sum to the
length `e − s` of the interval (in minutes, here expressed in hours as the
function returns hours). -/
theorem split_boundary_sum (s e b : ℕ) (h : s < e) :
    (split_time_by_boundary s e b).1 + (split_time_by_boundary s e b).2 =
      minutes_to_hours (e - s) := by
  unfold split_time_by_boundary
  have hne : ¬ e ≤ s := Nat.not_le.mpr h
  simp only [hne, if_false]
  split_ifs with h1 h2
  · simp
  · simp
  · rw [minutes_to_hours_add]
    congr 1
    omega

/-- Witness for C9 at the interval 07:00-15:00 with boundary 12:00. -/
theorem split_boundary_sum_witness :
    420 < 900 ∧
      (split_time_by_boundary 420 900 720).1 + (split_time_by_boundary 420 900 720).2 =
        minutes_to_hours (900 - 420) :=
  ⟨by omega, split_boundary_sum 420 900 720 (by omega)⟩

/-! ## Claim C7 -/

/-- Claim C7 counterexample: on the invalid interval 10:00-09:00
(`end ≤ start`) every time-splitter operation returns the pair `(0.0, 0.0)`
normally; none of them fails with an `InvalidInterval` error (the code has
no such error path at all). -/
theorem time_splitter_silent_zero_counterexample :
    calculate_time_segments 600 540 = (0, 0) ∧
    split_time_by_boundary 600 540 1080 = (0, 0) ∧
    calculate_overtime_day_night_split 600 540 = (0, 0) ∧
    calculate_sunday_noon_split 600 540 = (0, 0) :=
  ⟨rfl, rfl, rfl, rfl⟩

/-- Claim C7 (amended): every time-splitter operation, given an interval
with `end ≤ start`, silently returns `(0.0, 0.0)` instead of failing. -/
theorem time_splitter_zero_on_invalid (s e b : ℕ) (h : e ≤ s) :
    calculate_time_segments s e = (0, 0) ∧
    split_time_by_boundary s e b = (0, 0) ∧
    calculate_overtime_day_night_split s e = (0, 0) ∧
    calculate_sunday_noon_split s e = (0, 0) := by
  unfold calculate_time_segments split_time_by_boundary
    calculate_overtime_day_night_split calculate_sunday_noon_split
    split_time_by_boundary
  simp [h]

/-- Witness for the amended C7 at the interval 10:00-09:00. -/
theorem time_splitter_zero_on_invalid_witness :
    540 ≤ 600 ∧
      (calculate_time_segments 600 540 = (0, 0) ∧
       split_time_by_boundary 600 540 720 = (0, 0) ∧
       calculate_overtime_day_night_split 600 540 = (0, 0) ∧
       calculate_sunday_noon_split 600 540 = (0, 0)) :=
  ⟨by omega, time_splitter_zero_on_invalid 600 540 720 (by omega)⟩

/-! ## Claim C8 -/

/-- Claim C8 counterexample: with a stored token row and a failing upstream
revoke, the disconnect endpoint reports the failure and the local row is
still stored afterwards — it is not deleted unconditionally. -/
theorem disconnect_keeps_row_counterexample :
    disconnect (some ⟨"tok", "ref"⟩) false =
      (DisconnectResponse.revoke_failed, some ⟨"tok", "ref"⟩) ∧
    (disconnect (some ⟨"tok", "ref"⟩) false).2 ≠ none :=
  ⟨rfl, by simp [disconnect]⟩

/-- Claim C8 (amended): on disconnect the locally stored OAuthToken row is
deleted only when the upstream revoke call succeeds; when the upstream
revoke fails, the endpoint answers with the failure and the local row is
retained. -/
theorem disconnect_deletes_only_on_successful_revoke (row : OAuthTokenRow) :
    disconnect (some row) true = (DisconnectResponse.ok, none) ∧
    disconnect (some row) false = (DisconnectResponse.revoke_failed, some row) ∧
    disconnect none true = (DisconnectResponse.missing_connection, none) :=
  ⟨rfl, rfl, rfl⟩

/-! ## Claim C10 -/

/-- Claim C10: after `apply_call_out_payment(outputs, selections)`, an
output has `call_out_applied = true` only if it has call-out qualifying
time and its date is selected; every other output ends with
`call_out_payment = 0.0` and `call_out_applied = false`, so selecting a
non-qualifying day can never attach the 750 DKK payment. -/
theorem call_out_payment_only_selected_qualifying
    (outputs : List DailyOutput) (call_out_selections : ℕ → Bool)
    (o : DailyOutput) (ho : o ∈ apply_call_out_payment outputs call_out_selections) :
    (o.call_out_applied = true →
      o.has_call_out_qualifying_time = true ∧ call_out_selections o.date = true) ∧
    (¬ (o.has_call_out_qualifying_time = true ∧ call_out_selections o.date = true) →
      o.call_out_payment = 0 ∧ o.call_out_applied = false) := by
  simp only [apply_call_out_payment, List.mem_map] at ho
  obtain ⟨x, hx, rfl⟩ := ho
  split_ifs with hsel hq
  · simp [hq, hsel]
  · simp [hq]
  · simp [hsel]

/-- Witness for C10: a qualifying selected day keeps its applied payment,
checked on a one-row list. -/
theorem call_out_payment_only_selected_qualifying_witness :
    (row_c1 ∈ apply_call_out_payment [row_c1] (fun d => decide (d = 1))) ∧
    ((row_c1.call_out_applied = true →
      row_c1.has_call_out_qualifying_time = true ∧ (fun d => decide (d = 1)) row_c1.date = true) ∧
    (¬ (row_c1.has_call_out_qualifying_time = true ∧ (fun d => decide (d = 1)) row_c1.date = true) →
      row_c1.call_out_payment = 0 ∧ row_c1.call_out_applied = false)) := by
  have hmem : row_c1 ∈ apply_call_out_payment [row_c1] (fun d => decide (d = 1)) := by
    simp [apply_call_out_payment, row_c1, CALL_OUT_PAYMENT_AMOUNT]
  exact ⟨hmem,
    call_out_payment_only_selected_qualifying [row_c1] (fun d => decide (d = 1)) row_c1 hmem⟩

/-! ## Claim C6 -/
theorem detectAux_eq_true_iff (rest : List TimeEntry) : ∀ (seen : List TimeEntry),
    List.Sorted entryLE rest →
    (∀ p ∈ seen, ∀ x ∈ rest, p.start_time ≤ x.start_time) →
    (∀ p ∈ seen, CALL_OUT_MORNING_END ≤ p.start_time ∧
      (CALL_OUT_EVENING_START ≤ p.start_time →
        CALL_OUT_CONTINUATION_START ≤ p.start_time ∧
        ∃ q ∈ seen, q.start_time < p.start_time ∧ CALL_OUT_EVENING_START ≤ q.end_time)) →
    (detectAux seen rest = true ↔ ∃ x ∈ rest, call_out_entry_qualifies (seen ++ rest) x) := by
  have hconsts : CALL_OUT_EVENING_START ≤ CALL_OUT_CONTINUATION_START := by
    norm_num [CALL_OUT_EVENING_START, CALL_OUT_CONTINUATION_START]
  induction rest with
  | nil =>
    intro seen _ _ _
    simp [detectAux]
  | cons e rest ih =>
    intro seen hsort hord hinv
    rw [List.sorted_cons] at hsort
    obtain ⟨hefirst, hsort'⟩ := hsort
    have hordtail : ∀ p ∈ seen ++ [e], ∀ x ∈ rest, p.start_time ≤ x.start_time := by
      intro p hp x hx
      rcases List.mem_append.mp hp with hps | hpe
      · exact hord p hps x (List.mem_cons_of_mem e hx)
      · rw [List.mem_singleton.mp hpe]
        exact hefirst x hx
    by_cases h420 : e.start_time < CALL_OUT_MORNING_END
    · -- morning entry: detect returns true and e itself qualifies
      have hstep : detectAux seen (e :: rest) = true := by
        simp only [detectAux]
        rw [if_pos h420]
      rw [hstep]
      constructor
      · intro _
        exact ⟨e, List.mem_cons_self e rest, Or.inl h420⟩
      · intro _
        rfl
    · by_cases h930 : CALL_OUT_EVENING_START ≤ e.start_time
      · by_cases h960 : CALL_OUT_CONTINUATION_START ≤ e.start_time
        · by_cases hw : (seen.any fun p => decide (CALL_OUT_EVENING_START ≤ p.end_time)) = true
          · -- continuation: e is suppressed; the loop moves on
            have hw' := hw
            simp only [List.any_eq_true, decide_eq_true_eq] at hw'
            obtain ⟨p, hp, hpe⟩ := hw'
            -- a strict-start suppressor for e exists in seen
            have hstrict : ∃ q ∈ seen, q.start_time < e.start_time ∧
                CALL_OUT_EVENING_START ≤ q.end_time := by
              have hple : p.start_time ≤ e.start_time :=
                hord p hp e (List.mem_cons_self e rest)
              rcases lt_or_eq_of_le hple with hlt | heqs
              · exact ⟨p, hp, hlt, hpe⟩
              · obtain ⟨-, hcont⟩ := hinv p hp
                obtain ⟨-, q, hq, hqlt, hqe⟩ := hcont (by omega)
                exact ⟨q, hq, by omega, hqe⟩
            have hinvtail : ∀ p' ∈ seen ++ [e], CALL_OUT_MORNING_END ≤ p'.start_time ∧
                (CALL_OUT_EVENING_START ≤ p'.start_time →
                  CALL_OUT_CONTINUATION_START ≤ p'.start_time ∧
                  ∃ q ∈ seen ++ [e], q.start_time < p'.start_time ∧
                    CALL_OUT_EVENING_START ≤ q.end_time) := by
              intro p' hp'
              rcases List.mem_append.mp hp' with hps | hpe'
              · obtain ⟨h1, h2⟩ := hinv p' hps
                refine ⟨h1, fun h930p => ?_⟩
                obtain ⟨h3, q, hq, hqlt, hqe⟩ := h2 h930p
                exact ⟨h3, q, List.mem_append_left _ hq, hqlt, hqe⟩
              · rw [List.mem_singleton.mp hpe']
                refine ⟨by omega, fun _ => ⟨h960, ?_⟩⟩
                obtain ⟨q, hq, hqlt, hqe⟩ := hstrict
                exact ⟨q, List.mem_append_left _ hq, hqlt, hqe⟩
            have hiff := ih (seen ++ [e]) hsort' hordtail hinvtail
            rw [List.append_assoc, List.singleton_append] at hiff
            have hQe : ¬ call_out_entry_qualifies (seen ++ e :: rest) e := by
              intro hq
              unfold call_out_entry_qualifies call_out_suppressed at hq
              rcases hq with h | ⟨-, h2 | h2⟩
              · omega
              · omega
              · obtain ⟨q, hq', hqlt, hqe⟩ := hstrict
                exact h2 ⟨q, List.mem_append_left _ hq', hqlt, hqe⟩
            have hstep : detectAux seen (e :: rest) = detectAux (seen ++ [e]) rest := by
              simp only [detectAux]
              rw [if_neg h420, if_pos h930, if_pos h960, if_pos hw]
            rw [hstep, hiff, List.exists_mem_cons_iff]
            simp [hQe]
          · -- no earlier entry ended at/after 15:30: e qualifies
            have hQe : call_out_entry_qualifies (seen ++ e :: rest) e := by
              unfold call_out_entry_qualifies call_out_suppressed
              refine Or.inr ⟨h930, Or.inr ?_⟩
              rintro ⟨p, hpL, hplt, hpe⟩
              rcases List.mem_append.mp hpL with hps | hpc
              · simp only [List.any_eq_true, decide_eq_true_eq] at hw
                exact hw ⟨p, hps, hpe⟩
              · rcases List.mem_cons.mp hpc with rfl | hpr
                · omega
                · have := hefirst p hpr
                  simp only [entryLE] at this
                  omega
            have hstep : detectAux seen (e :: rest) = true := by
              simp only [detectAux]
              rw [if_neg h420, if_pos h930, if_pos h960, if_neg hw]
            rw [hstep]
            constructor
            · intro _
              exact ⟨e, List.mem_cons_self e rest, hQe⟩
            · intro _
              rfl
        · -- 15:30 ≤ start < 16:00: qualifies without the continuation check
          have hstep : detectAux seen (e :: rest) = true := by
            simp only [detectAux]
            rw [if_neg h420, if_pos h930, if_neg h960]
          rw [hstep]
          constructor
          · intro _
            refine ⟨e, List.mem_cons_self e rest, ?_⟩
            unfold call_out_entry_qualifies
            exact Or.inr ⟨h930, Or.inl (by omega)⟩
          · intro _
            rfl
      · -- 07:00 ≤ start < 15:30: e never qualifies; the loop moves on
        have hinvtail : ∀ p' ∈ seen ++ [e], CALL_OUT_MORNING_END ≤ p'.start_time ∧
            (CALL_OUT_EVENING_START ≤ p'.start_time →
              CALL_OUT_CONTINUATION_START ≤ p'.start_time ∧
              ∃ q ∈ seen ++ [e], q.start_time < p'.start_time ∧
                CALL_OUT_EVENING_START ≤ q.end_time) := by
          intro p' hp'
          rcases List.mem_append.mp hp' with hps | hpe'
          · obtain ⟨h1, h2⟩ := hinv p' hps
            refine ⟨h1, fun h930p => ?_⟩
            obtain ⟨h3, q, hq, hqlt, hqe⟩ := h2 h930p
            exact ⟨h3, q, List.mem_append_left _ hq, hqlt, hqe⟩
          · rw [List.mem_singleton.mp hpe']
            exact ⟨by omega, fun h => absurd h h930⟩
        have hiff := ih (seen ++ [e]) hsort' hordtail hinvtail
        rw [List.append_assoc, List.singleton_append] at hiff
        have hQe : ¬ call_out_entry_qualifies (seen ++ e :: rest) e := by
          intro hq
          unfold call_out_entry_qualifies at hq
          rcases hq with h | ⟨h1, -⟩
          · omega
          · omega
        have hstep : detectAux seen (e :: rest) = detectAux (seen ++ [e]) rest := by
          simp only [detectAux]
          rw [if_neg h420, if_neg h930]
        rw [hstep, hiff, List.exists_mem_cons_iff]
        simp [hQe]

theorem call_out_entry_qualifies_congr (L L' : List TimeEntry)
    (hmem : ∀ x : TimeEntry, x ∈ L ↔ x ∈ L') (e : TimeEntry) :
    call_out_entry_qualifies L e ↔ call_out_entry_qualifies L' e := by
  have hsup : call_out_suppressed L e ↔ call_out_suppressed L' e := by
    unfold call_out_suppressed
    constructor
    · rintro ⟨p, hp, h⟩
      exact ⟨p, (hmem p).mp hp, h⟩
    · rintro ⟨p, hp, h⟩
      exact ⟨p, (hmem p).mpr hp, h⟩
  unfold call_out_entry_qualifies
  rw [hsup]

/-- Claim C6: a day qualifies for call-out if and only if some entry starts
before 07:00, or some entry starts at or after 15:30 and is not suppressed
by the continuation rule (an entry starting at or after 16:00 does not
qualify when some entry with an earlier start on the same day ended at or
after 15:30); entries starting in [15:30, 16:00) or before 07:00 never
undergo the continuation check.  In particular an entry starting exactly at
15:30 qualifies and one starting at 15:29 does not. -/
theorem call_out_detection_iff :
    (∀ entries : List TimeEntry,
      detect_call_out_eligibility entries = true ↔ call_out_spec entries) ∧
    detect_call_out_eligibility [⟨930, 1020, 3/2⟩] = true ∧
    detect_call_out_eligibility [⟨929, 1020, 3/2⟩] = false := by
  refine ⟨?_, by rfl, by rfl⟩
  intro entries
  have hmem : ∀ x : TimeEntry, x ∈ List.insertionSort entryLE entries ↔ x ∈ entries :=
    fun x => List.mem_insertionSort entryLE
  have hiff := detectAux_eq_true_iff (List.insertionSort entryLE entries) []
    (List.sorted_insertionSort entryLE entries)
    (by intro p hp; simp at hp)
    (by intro p hp; simp at hp)
  simp only [List.nil_append] at hiff
  unfold detect_call_out_eligibility
  rw [hiff]
  unfold call_out_spec
  constructor
  · rintro ⟨x, hx, hq⟩
    exact ⟨x, (hmem x).mp hx,
      (call_out_entry_qualifies_congr _ _ hmem x).mp hq⟩
  · rintro ⟨x, hx, hq⟩
    exact ⟨x, (hmem x).mpr hx,
      (call_out_entry_qualifies_congr _ _ hmem x).mpr hq⟩

theorem aht_facts (t u : ℚ) (ht : 0 ≤ t) :
    0 ≤ (apply_hourly_thresholds t u).1 ∧
    (apply_hourly_thresholds t u).1 ≤ t ∧
    u + (apply_hourly_thresholds t u).1 ≤ max u 2 ∧
    0 ≤ (apply_hourly_thresholds t u).2.1 ∧
    (apply_hourly_thresholds t u).2.1 ≤ 2 ∧
    (apply_hourly_thresholds t u).2.1 ≤ t ∧
    (4 ≤ u → (apply_hourly_thresholds t u).2.1 = 0) ∧
    (2 ≤ u → u < 4 → (apply_hourly_thresholds t u).2.1 ≤ 4 - u) ∧
    (u < 2 → (apply_hourly_thresholds t u).2.1 ≤ max (u + t - 2) 0) ∧
    0 ≤ (apply_hourly_thresholds t u).2.2 ∧
    (apply_hourly_thresholds t u).1 + (apply_hourly_thresholds t u).2.1 +
      (apply_hourly_thresholds t u).2.2 = t := by
  have hmaxu2a := le_max_left u (2 : ℚ)
  have hmaxu2b := le_max_right u (2 : ℚ)
  have hmaxt2a := le_max_left (u + t - 2) (0 : ℚ)
  have hmaxt2b := le_max_right (u + t - 2) (0 : ℚ)
  simp only [apply_hourly_thresholds]
  by_cases h1 : u < 2 ∧ 0 < t
  · obtain ⟨h1u, h1t⟩ := h1
    rw [if_pos (show u < 2 ∧ 0 < t from ⟨h1u, h1t⟩)]
    dsimp only
    have ha1 : min t (2 - u) ≤ t := min_le_left t (2 - u)
    have ha2 : min t (2 - u) ≤ 2 - u := min_le_right t (2 - u)
    have ha0 : 0 ≤ min t (2 - u) := le_min ht (by linarith)
    by_cases h2 : u + min t (2 - u) < 4 ∧ 0 < t - min t (2 - u)
    · obtain ⟨h2v, h2r⟩ := h2
      rw [if_pos (show u + min t (2 - u) < 4 ∧ 0 < t - min t (2 - u) from ⟨h2v, h2r⟩)]
      dsimp only
      have hb1 : min (t - min t (2 - u)) (4 - (u + min t (2 - u))) ≤ t - min t (2 - u) :=
        min_le_left _ _
      have hb2 : min (t - min t (2 - u)) (4 - (u + min t (2 - u))) ≤ 4 - (u + min t (2 - u)) :=
        min_le_right _ _
      have hb0 : 0 ≤ min (t - min t (2 - u)) (4 - (u + min t (2 - u))) :=
        le_min (le_of_lt h2r) (by linarith)
      have haeq : min t (2 - u) = 2 - u := by
        rcases min_cases t (2 - u) with ⟨hm, hm2⟩ | ⟨hm, hm2⟩
        · linarith
        · linarith
      by_cases h3 : 0 < t - min t (2 - u) -
          min (t - min t (2 - u)) (4 - (u + min t (2 - u)))
      · rw [if_pos h3]
        refine ⟨ha0, ha1, by linarith, hb0, by linarith, by linarith,
          fun h => by linarith, fun h _ => by linarith,
          fun h => by linarith, by linarith, by linarith⟩
      · rw [if_neg h3]
        refine ⟨ha0, ha1, by linarith, hb0, by linarith, by linarith,
          fun h => by linarith, fun h _ => by linarith,
          fun h => by linarith, le_refl 0, by linarith⟩
    · rw [if_neg h2]
      dsimp only
      push_neg at h2
      by_cases h3 : 0 < t - min t (2 - u)
      · rw [if_pos h3]
        have h2v : 4 ≤ u + min t (2 - u) := not_lt.mp (fun hlt => absurd (h2 hlt) (not_le.mpr h3))
        refine ⟨ha0, ha1, by linarith, le_refl 0, by linarith, ht,
          fun h => rfl, fun h _ => by linarith,
          fun h => by linarith, by linarith, by linarith⟩
      · rw [if_neg h3]
        refine ⟨ha0, ha1, by linarith, le_refl 0, by linarith, ht,
          fun h => rfl, fun h _ => by linarith,
          fun h => by linarith, le_refl 0, by linarith⟩
  · rw [if_neg h1]
    dsimp only
    push_neg at h1
    by_cases h2 : u < 4 ∧ 0 < t
    · obtain ⟨h2v, h2r⟩ := h2
      have h1u : 2 ≤ u := by
        rcases lt_or_ge u 2 with h | h
        · exact absurd h2r (not_lt.mpr (h1 h))
        · exact h
      rw [if_pos (show u < 4 ∧ 0 < t from ⟨h2v, h2r⟩)]
      dsimp only
      have hb1 : min t (4 - u) ≤ t := min_le_left t (4 - u)
      have hb2 : min t (4 - u) ≤ 4 - u := min_le_right t (4 - u)
      have hb0 : 0 ≤ min t (4 - u) := le_min ht (by linarith)
      by_cases h3 : 0 < t - min t (4 - u)
      · rw [if_pos h3]
        refine ⟨le_refl 0, ht, by linarith, hb0, by linarith, hb1,
          fun h => by linarith, fun h _ => by linarith,
          fun h => by linarith, by linarith, by linarith⟩
      · rw [if_neg h3]
        refine ⟨le_refl 0, ht, by linarith, hb0, by linarith, hb1,
          fun h => by linarith, fun h _ => by linarith,
          fun h => by linarith, le_refl 0, by linarith⟩
    · rw [if_neg h2]
      dsimp only
      push_neg at h2
      by_cases h3 : 0 < t
      · rw [if_pos h3]
        have h2v : 4 ≤ u := not_lt.mp (fun hlt => absurd (h2 hlt) (not_le.mpr h3))
        refine ⟨le_refl 0, ht, by linarith, le_refl 0, by linarith, ht,
          fun h => rfl, fun h h4 => by linarith,
          fun h => by linarith, by linarith, by linarith⟩
      · rw [if_neg h3]
        have ht0 : t = 0 := le_antisymm (not_lt.mp h3) ht
        refine ⟨le_refl 0, ht, by linarith, le_refl 0, by linarith, ht,
          fun h => rfl, fun h _ => by linarith,
          fun h => by linarith, le_refl 0, by linarith⟩

theorem split_sum_eq_span (s e b : ℕ) :
    (split_time_by_boundary s e b).1 + (split_time_by_boundary s e b).2 =
      entry_span s e := by
  unfold split_time_by_boundary entry_span
  by_cases h : e ≤ s
  · simp [h, Nat.not_lt.mpr h]
  · have hlt : s < e := Nat.not_le.mp h
    simp only [h, if_false, hlt, if_true]
    split_ifs with h1 h2
    · simp
    · simp
    · rw [minutes_to_hours_add]
      congr 1
      omega

theorem day_night_sum_eq_span (s e : ℕ) :
    (calculate_overtime_day_night_split s e).1 +
      (calculate_overtime_day_night_split s e).2 = entry_span s e := by
  unfold calculate_overtime_day_night_split entry_span
  by_cases h : e ≤ s
  · simp [h, Nat.not_lt.mpr h]
  · have hlt : s < e := Nat.not_le.mp h
    simp only [h, if_false, hlt, if_true]
    split_ifs with h1
    · rw [minutes_to_hours_add]
      congr 1
      have hd : max s OT_DAY_START ≤ min e OT_DAY_END := le_of_lt h1
      have h1a : s ≤ max s OT_DAY_START := le_max_left _ _
      have h1b : min e OT_DAY_END ≤ e := min_le_left _ _
      omega
    · simp [minutes_to_hours]

theorem ceo_tiers_zero (s e : ℕ) (h : ℚ) (dt : DayType) (off : Bool) (ou : ℚ) :
    (categorize_entry_overtime s e h dt off ou).ot_weekday_hour_1_2 = 0 ∧
    (categorize_entry_overtime s e h dt off ou).ot_weekday_hour_3_4 = 0 ∧
    (categorize_entry_overtime s e h dt off ou).ot_weekday_hour_5_plus = 0 := by
  cases dt <;> cases off <;> simp [categorize_entry_overtime]

theorem ceo_total (s e : ℕ) (h : ℚ) (dt : DayType) (off : Bool) (ou : ℚ) :
    (categorize_entry_overtime s e h dt off ou).total = entry_span s e := by
  cases dt with
  | Sunday =>
    simp [categorize_entry_overtime, OvertimeBreakdown.total, calculate_sunday_noon_split]
    rw [← split_sum_eq_span s e SUNDAY_NOON]
  | Saturday =>
    simp [categorize_entry_overtime, OvertimeBreakdown.total]
    rw [← day_night_sum_eq_span s e]
  | Weekday =>
    cases off with
    | false =>
      simp [categorize_entry_overtime, OvertimeBreakdown.total]
      rw [← day_night_sum_eq_span s e]
    | true =>
      simp [categorize_entry_overtime, OvertimeBreakdown.total]
      rw [← day_night_sum_eq_span s e]

theorem ceo_sched_sum (s e : ℕ) (h ou : ℚ) :
    (categorize_entry_overtime s e h DayType.Weekday false ou).ot_weekday_scheduled_day +
      (categorize_entry_overtime s e h DayType.Weekday false ou).ot_weekday_scheduled_night =
      entry_span s e := by
  simp [categorize_entry_overtime]
  rw [← day_night_sum_eq_span s e]

theorem sched_fold_weekday (ou : ℚ) (l : List TimeEntry) : ∀ (a b : ℚ),
    (l.foldl (sched_step DayType.Weekday false ou) (a, b)).1 +
      (l.foldl (sched_step DayType.Weekday false ou) (a, b)).2 =
      a + b + entries_span_hours l := by
  induction l with
  | nil =>
    intro a b
    simp [entries_span_hours]
  | cons e l ih =>
    intro a b
    simp only [List.foldl_cons, sched_step]
    rw [ih]
    have := ceo_sched_sum e.start_time e.end_time e.total_hours ou
    simp only [entries_span_hours, List.map_cons, List.sum_cons]
    simp only [entries_span_hours] at *
    linarith

theorem entry_accumulate_tiers (dt : DayType) (off : Bool) (ou : ℚ)
    (acc : OvertimeBreakdown) (entry : TimeEntry) :
    (entry_accumulate dt off ou acc entry).ot_weekday_hour_1_2 = acc.ot_weekday_hour_1_2 ∧
    (entry_accumulate dt off ou acc entry).ot_weekday_hour_3_4 = acc.ot_weekday_hour_3_4 ∧
    (entry_accumulate dt off ou acc entry).ot_weekday_hour_5_plus = acc.ot_weekday_hour_5_plus := by
  simp [entry_accumulate]

theorem entry_accumulate_total (dt : DayType) (off : Bool) (ou : ℚ)
    (acc : OvertimeBreakdown) (entry : TimeEntry) :
    (entry_accumulate dt off ou acc entry).total =
      acc.total + entry_span entry.start_time entry.end_time := by
  have hz := ceo_tiers_zero entry.start_time entry.end_time entry.total_hours dt off ou
  have ht := ceo_total entry.start_time entry.end_time entry.total_hours dt off ou
  simp only [OvertimeBreakdown.total] at ht
  simp only [entry_accumulate, OvertimeBreakdown.total]
  obtain ⟨hz1, hz2, hz3⟩ := hz
  linarith

theorem entry_accumulate_fold (dt : DayType) (off : Bool) (ou : ℚ) (l : List TimeEntry) :
    ∀ acc : OvertimeBreakdown,
    ((l.foldl (entry_accumulate dt off ou) acc).ot_weekday_hour_1_2 = acc.ot_weekday_hour_1_2 ∧
     (l.foldl (entry_accumulate dt off ou) acc).ot_weekday_hour_3_4 = acc.ot_weekday_hour_3_4 ∧
     (l.foldl (entry_accumulate dt off ou) acc).ot_weekday_hour_5_plus = acc.ot_weekday_hour_5_plus) ∧
    (l.foldl (entry_accumulate dt off ou) acc).total = acc.total + entries_span_hours l := by
  induction l with
  | nil =>
    intro acc
    simp [entries_span_hours]
  | cons e l ih =>
    intro acc
    simp only [List.foldl_cons]
    obtain ⟨⟨ih1, ih2, ih3⟩, ih4⟩ := ih (entry_accumulate dt off ou acc e)
    obtain ⟨hs1, hs2, hs3⟩ := entry_accumulate_tiers dt off ou acc e
    refine ⟨⟨?_, ?_, ?_⟩, ?_⟩
    · rw [ih1, hs1]
    · rw [ih2, hs2]
    · rw [ih3, hs3]
    · rw [ih4, entry_accumulate_total dt off ou acc e]
      simp only [entries_span_hours, List.map_cons, List.sum_cons]
      ring

theorem cdo_norm (record : DailyRecord) (nu ou : ℚ) :
    (categorize_day_overtime record nu ou).2.1 =
      min (record.total_hours + record.credited_hours)
        (max 0 (WEEKLY_NORM_HOURS - nu)) := by
  simp only [categorize_day_overtime]
  split_ifs <;> rfl

theorem cdo_ot (record : DailyRecord) (nu ou : ℚ) :
    (categorize_day_overtime record nu ou).2.2 = day_ot_value record nu := by
  simp only [categorize_day_overtime, day_ot_value]
  split_ifs with h1 h2 h3
  · exact h1.symm
  · rfl
  · rfl
  · rfl

theorem cdo_ot_nonneg (record : DailyRecord) (nu ou : ℚ) :
    0 ≤ (categorize_day_overtime record nu ou).2.2 := by
  rw [cdo_ot]
  unfold day_ot_value
  exact le_max_left _ _

theorem cdo_tiers (record : DailyRecord) (nu ou : ℚ) :
    ((categorize_day_overtime record nu ou).1.ot_weekday_hour_1_2 =
        (apply_hourly_thresholds (categorize_day_overtime record nu ou).2.2 ou).1 ∧
     (categorize_day_overtime record nu ou).1.ot_weekday_hour_3_4 =
        (apply_hourly_thresholds (categorize_day_overtime record nu ou).2.2 ou).2.1 ∧
     (categorize_day_overtime record nu ou).1.ot_weekday_hour_5_plus =
        (apply_hourly_thresholds (categorize_day_overtime record nu ou).2.2 ou).2.2) ∨
    ((categorize_day_overtime record nu ou).1.ot_weekday_hour_1_2 = 0 ∧
     (categorize_day_overtime record nu ou).1.ot_weekday_hour_3_4 = 0 ∧
     (categorize_day_overtime record nu ou).1.ot_weekday_hour_5_plus = 0) := by
  simp only [categorize_day_overtime]
  split_ifs with h1 h2 h3
  · right
    exact ⟨rfl, rfl, rfl⟩
  · left
    exact ⟨rfl, rfl, rfl⟩
  · left
    exact ⟨rfl, rfl, rfl⟩
  · right
    obtain ⟨⟨ha, hb, hc⟩, -⟩ :=
      entry_accumulate_fold record.day_type record.is_day_off ou record.entries
        ({} : OvertimeBreakdown)
    exact ⟨ha, hb, hc⟩

theorem day_ot_value_nonneg (record : DailyRecord) (nu : ℚ) :
    0 ≤ day_ot_value record nu := le_max_left _ _

theorem cdo_eq_zero (record : DailyRecord) (nu ou : ℚ)
    (h : day_ot_value record nu = 0) :
    categorize_day_overtime record nu ou =
      ({}, min (record.total_hours + record.credited_hours)
        (max 0 (WEEKLY_NORM_HOURS - nu)), 0) := by
  unfold day_ot_value at h
  simp only [categorize_day_overtime]
  rw [if_pos h]

theorem cdo_eq_credited (record : DailyRecord) (nu ou : ℚ)
    (h0 : ¬ day_ot_value record nu = 0)
    (hc : record.total_hours = 0 ∧ 0 < record.credited_hours) :
    categorize_day_overtime record nu ou =
      ({ ot_weekday_hour_1_2 := (apply_hourly_thresholds (day_ot_value record nu) ou).1,
         ot_weekday_hour_3_4 := (apply_hourly_thresholds (day_ot_value record nu) ou).2.1,
         ot_weekday_hour_5_plus := (apply_hourly_thresholds (day_ot_value record nu) ou).2.2 },
       min (record.total_hours + record.credited_hours)
         (max 0 (WEEKLY_NORM_HOURS - nu)),
       day_ot_value record nu) := by
  unfold day_ot_value at h0
  simp only [categorize_day_overtime]
  rw [if_neg h0, if_pos hc]
  unfold day_ot_value
  rfl

theorem cdo_eq_weekday (record : DailyRecord) (nu ou : ℚ)
    (h0 : ¬ day_ot_value record nu = 0)
    (hc : ¬ (record.total_hours = 0 ∧ 0 < record.credited_hours))
    (hw : record.day_type = DayType.Weekday ∧ record.is_day_off = false) :
    categorize_day_overtime record nu ou =
      ({ ot_weekday_hour_1_2 := (apply_hourly_thresholds (day_ot_value record nu) ou).1,
         ot_weekday_hour_3_4 := (apply_hourly_thresholds (day_ot_value record nu) ou).2.1,
         ot_weekday_hour_5_plus := (apply_hourly_thresholds (day_ot_value record nu) ou).2.2,
         ot_weekday_scheduled_day :=
           (record.entries.foldl (sched_step record.day_type record.is_day_off ou)
             ((0 : ℚ), (0 : ℚ))).1,
         ot_weekday_scheduled_night :=
           (record.entries.foldl (sched_step record.day_type record.is_day_off ou)
             ((0 : ℚ), (0 : ℚ))).2 },
       min (record.total_hours + record.credited_hours)
         (max 0 (WEEKLY_NORM_HOURS - nu)),
       day_ot_value record nu) := by
  unfold day_ot_value at h0
  simp only [categorize_day_overtime]
  rw [if_neg h0, if_neg hc, if_pos hw]
  unfold day_ot_value
  rfl

theorem cdo_eq_else (record : DailyRecord) (nu ou : ℚ)
    (h0 : ¬ day_ot_value record nu = 0)
    (hc : ¬ (record.total_hours = 0 ∧ 0 < record.credited_hours))
    (hw : ¬ (record.day_type = DayType.Weekday ∧ record.is_day_off = false)) :
    categorize_day_overtime record nu ou =
      (record.entries.foldl (entry_accumulate record.day_type record.is_day_off ou)
         ({} : OvertimeBreakdown),
       min (record.total_hours + record.credited_hours)
         (max 0 (WEEKLY_NORM_HOURS - nu)),
       day_ot_value record nu) := by
  unfold day_ot_value at h0
  simp only [categorize_day_overtime]
  rw [if_neg h0, if_neg hc, if_neg hw]
  unfold day_ot_value
  rfl

/-- Claim C3 (amended): the eleven buckets of the per-day breakdown sum to
the day's overtime hours `max(0, total_hours + credited_hours − norm
allocated)` only on days without overtime (where both are zero) and on
credited-absence days without entries; on an ordinary weekday with overtime
they sum to the day's overtime plus the full span of the day's entries
(the tier view and the time-of-day view are emitted side by side), and on
Saturday/Sunday/day-off days with overtime they sum to the full span of
the entries rather than to the overtime; the weekly breakdown, being the
field-wise sum of the daily ones, overcounts in the same way. -/
theorem day_breakdown_total_characterization (record : DailyRecord) (nu ou : ℚ) :
    (categorize_day_overtime record nu ou).2.2 = day_ot_value record nu ∧
    (categorize_day_overtime record nu ou).1.total =
      (if day_ot_value record nu = 0 then 0
       else if record.total_hours = 0 ∧ 0 < record.credited_hours then
         day_ot_value record nu
       else if record.day_type = DayType.Weekday ∧ record.is_day_off = false then
         day_ot_value record nu + entries_span_hours record.entries
       else entries_span_hours record.entries) := by
  refine ⟨cdo_ot record nu ou, ?_⟩
  by_cases h0 : day_ot_value record nu = 0
  · rw [cdo_eq_zero record nu ou h0, if_pos h0]
    simp [OvertimeBreakdown.total]
  · rw [if_neg h0]
    obtain ⟨-, -, -, -, -, -, -, -, -, -, hsum⟩ :=
      aht_facts (day_ot_value record nu) ou (day_ot_value_nonneg record nu)
    by_cases hc : record.total_hours = 0 ∧ 0 < record.credited_hours
    · rw [cdo_eq_credited record nu ou h0 hc, if_pos hc]
      simp only [OvertimeBreakdown.total]
      norm_num
      linarith
    · rw [if_neg hc]
      by_cases hw : record.day_type = DayType.Weekday ∧ record.is_day_off = false
      · rw [cdo_eq_weekday record nu ou h0 hc hw, if_pos hw]
        simp only [OvertimeBreakdown.total]
        rw [hw.1, hw.2]
        have hsched := sched_fold_weekday ou record.entries 0 0
        norm_num
        norm_num at hsched
        linarith
      · rw [cdo_eq_else record nu ou h0 hc hw, if_neg hw]
        obtain ⟨-, htotal⟩ :=
          entry_accumulate_fold record.day_type record.is_day_off ou record.entries
            ({} : OvertimeBreakdown)
        rw [htotal]
        simp [OvertimeBreakdown.total]

/-- Claim C2 (amended): on an ordinary weekday (not a day off, not a
credited-absence day without work) the hourly-tier buckets sum exactly to
the day's overtime hours, but the time-of-day buckets cover each entry's
full interval, not only its overtime fraction: whenever the day has any
overtime, `scheduled_day + scheduled_night` equals the total span of the
day's entries.  The two views therefore agree only when the day's overtime
equals the full span of its entries. -/
theorem weekday_two_views (record : DailyRecord) (nu ou : ℚ)
    (hw : record.day_type = DayType.Weekday) (hoff : record.is_day_off = false)
    (hcred : ¬(record.total_hours = 0 ∧ 0 < record.credited_hours)) :
    (categorize_day_overtime record nu ou).1.tierTotal =
      (categorize_day_overtime record nu ou).2.2 ∧
    (categorize_day_overtime record nu ou).1.schedTotal =
      (if day_ot_value record nu = 0 then 0
       else entries_span_hours record.entries) := by
  by_cases h0 : day_ot_value record nu = 0
  · rw [cdo_eq_zero record nu ou h0, if_pos h0]
    simp [OvertimeBreakdown.tierTotal, OvertimeBreakdown.schedTotal]
  · rw [cdo_eq_weekday record nu ou h0 hcred ⟨hw, hoff⟩, if_neg h0]
    obtain ⟨-, -, -, -, -, -, -, -, -, -, hsum⟩ :=
      aht_facts (day_ot_value record nu) ou (day_ot_value_nonneg record nu)
    have hsched := sched_fold_weekday ou record.entries 0 0
    rw [hw, hoff]
    constructor
    · simp only [OvertimeBreakdown.tierTotal]
      linarith
    · simp only [OvertimeBreakdown.schedTotal]
      linarith

/-- Witness for the amended C2: the fifth 8-hour weekday of a 40-hour week
(32 norm hours already used) has 3 tiered overtime hours while its
time-of-day buckets carry the full 8-hour span. -/
theorem weekday_two_views_witness :
    ((wd8 5).day_type = DayType.Weekday ∧ (wd8 5).is_day_off = false ∧
      ¬((wd8 5).total_hours = 0 ∧ 0 < (wd8 5).credited_hours)) ∧
    ((categorize_day_overtime (wd8 5) 32 0).1.tierTotal =
        (categorize_day_overtime (wd8 5) 32 0).2.2 ∧
      (categorize_day_overtime (wd8 5) 32 0).1.schedTotal =
        (if day_ot_value (wd8 5) 32 = 0 then 0
         else entries_span_hours (wd8 5).entries)) :=
  ⟨⟨rfl, rfl, by norm_num [wd8]⟩,
    weekday_two_views (wd8 5) 32 0 rfl rfl (by norm_num [wd8])⟩

theorem week_step_proj (acc : WeekAcc) (record : DailyRecord) :
    (week_step acc record).weekly_norm_used =
      acc.weekly_norm_used +
        (categorize_day_overtime record acc.weekly_norm_used acc.weekly_ot_hours_used).2.1 ∧
    (week_step acc record).weekly_ot_hours_used =
      acc.weekly_ot_hours_used +
        (categorize_day_overtime record acc.weekly_norm_used acc.weekly_ot_hours_used).2.2 ∧
    (week_step acc record).weekly_breakdown =
      merge_overtime_breakdowns acc.weekly_breakdown
        (categorize_day_overtime record acc.weekly_norm_used acc.weekly_ot_hours_used).1 :=
  ⟨rfl, rfl, rfl⟩

theorem merge_proj (a b : OvertimeBreakdown) :
    (merge_overtime_breakdowns a b).ot_weekday_hour_1_2 =
      a.ot_weekday_hour_1_2 + b.ot_weekday_hour_1_2 ∧
    (merge_overtime_breakdowns a b).ot_weekday_hour_3_4 =
      a.ot_weekday_hour_3_4 + b.ot_weekday_hour_3_4 ∧
    (merge_overtime_breakdowns a b).ot_weekday_hour_5_plus =
      a.ot_weekday_hour_5_plus + b.ot_weekday_hour_5_plus :=
  ⟨rfl, rfl, rfl⟩

theorem merge_empty_right (b : OvertimeBreakdown) :
    merge_overtime_breakdowns b {} = b := by
  cases b
  simp [merge_overtime_breakdowns]

theorem week_fold_norm_le (l : List DailyRecord) : ∀ acc : WeekAcc,
    acc.weekly_norm_used ≤ WEEKLY_NORM_HOURS →
    (l.foldl week_step acc).weekly_norm_used ≤ WEEKLY_NORM_HOURS := by
  induction l with
  | nil =>
    intro acc h
    exact h
  | cons r l ih =>
    intro acc h
    simp only [List.foldl_cons]
    apply ih
    rw [(week_step_proj acc r).1, cdo_norm]
    rcases le_or_lt (WEEKLY_NORM_HOURS - acc.weekly_norm_used) 0 with hle | hlt
    · rw [max_eq_left hle]
      have h1 := min_le_right (r.total_hours + r.credited_hours) (0 : ℚ)
      linarith
    · rw [max_eq_right (le_of_lt hlt)]
      have h1 := min_le_right (r.total_hours + r.credited_hours)
        (WEEKLY_NORM_HOURS - acc.weekly_norm_used)
      linarith

theorem week_fold_no_ot (l : List DailyRecord) : ∀ acc : WeekAcc,
    (∀ r ∈ l, 0 ≤ r.total_hours ∧ 0 ≤ r.credited_hours) →
    acc.weekly_norm_used + (l.map (fun r => r.total_hours + r.credited_hours)).sum ≤
      WEEKLY_NORM_HOURS →
    (l.foldl week_step acc).weekly_breakdown = acc.weekly_breakdown := by
  induction l with
  | nil =>
    intro acc _ _
    rfl
  | cons r l ih =>
    intro acc hnn hsum
    simp only [List.map_cons, List.sum_cons] at hsum
    have hr := hnn r (List.mem_cons_self r l)
    have hrest : 0 ≤ (l.map (fun r => r.total_hours + r.credited_hours)).sum := by
      apply List.sum_nonneg
      intro x hx
      simp only [List.mem_map] at hx
      obtain ⟨r2, hr2, rfl⟩ := hx
      have := hnn r2 (List.mem_cons_of_mem _ hr2)
      linarith [this.1, this.2]
    have hmaxr : r.total_hours + r.credited_hours ≤
        max 0 (WEEKLY_NORM_HOURS - acc.weekly_norm_used) := by
      refine le_trans (show r.total_hours + r.credited_hours ≤
        WEEKLY_NORM_HOURS - acc.weekly_norm_used by linarith) (le_max_right _ _)
    have hmin : min (r.total_hours + r.credited_hours)
        (max 0 (WEEKLY_NORM_HOURS - acc.weekly_norm_used)) =
        r.total_hours + r.credited_hours := min_eq_left hmaxr
    have hday : day_ot_value r acc.weekly_norm_used = 0 := by
      unfold day_ot_value
      rw [hmin]
      simp
    simp only [List.foldl_cons]
    rw [ih (week_step acc r) (fun x hx => hnn x (List.mem_cons_of_mem _ hx)) ?_]
    · rw [(week_step_proj acc r).2.2,
        cdo_eq_zero r acc.weekly_norm_used acc.weekly_ot_hours_used hday]
      exact merge_empty_right acc.weekly_breakdown
    · rw [(week_step_proj acc r).1, cdo_norm, hmin]
      linarith

theorem week_fold_tier_bounds (l : List DailyRecord) : ∀ acc : WeekAcc,
    0 ≤ acc.weekly_ot_hours_used →
    0 ≤ acc.weekly_breakdown.ot_weekday_hour_1_2 →
    acc.weekly_breakdown.ot_weekday_hour_1_2 ≤ 2 →
    acc.weekly_breakdown.ot_weekday_hour_1_2 ≤ acc.weekly_ot_hours_used →
    0 ≤ acc.weekly_breakdown.ot_weekday_hour_3_4 →
    acc.weekly_breakdown.ot_weekday_hour_3_4 ≤ 2 →
    acc.weekly_breakdown.ot_weekday_hour_3_4 + 2 ≤ max acc.weekly_ot_hours_used 2 →
    0 ≤ acc.weekly_breakdown.ot_weekday_hour_5_plus →
    (0 ≤ (l.foldl week_step acc).weekly_ot_hours_used ∧
     0 ≤ (l.foldl week_step acc).weekly_breakdown.ot_weekday_hour_1_2 ∧
     (l.foldl week_step acc).weekly_breakdown.ot_weekday_hour_1_2 ≤ 2 ∧
     (l.foldl week_step acc).weekly_breakdown.ot_weekday_hour_1_2 ≤
       (l.foldl week_step acc).weekly_ot_hours_used ∧
     0 ≤ (l.foldl week_step acc).weekly_breakdown.ot_weekday_hour_3_4 ∧
     (l.foldl week_step acc).weekly_breakdown.ot_weekday_hour_3_4 ≤ 2 ∧
     (l.foldl week_step acc).weekly_breakdown.ot_weekday_hour_3_4 + 2 ≤
       max (l.foldl week_step acc).weekly_ot_hours_used 2 ∧
     0 ≤ (l.foldl week_step acc).weekly_breakdown.ot_weekday_hour_5_plus) := by
  induction l with
  | nil =>
    intro acc h1 h2 h3 h4 h5 h6 h7 h8
    exact ⟨h1, h2, h3, h4, h5, h6, h7, h8⟩
  | cons r l ih =>
    intro acc h1 h2 h3 h4 h5 h6 h7 h8
    simp only [List.foldl_cons]
    obtain ⟨hpn, hpo, hpb⟩ := week_step_proj acc r
    obtain ⟨hm1, hm2, hm3⟩ := merge_proj acc.weekly_breakdown
      (categorize_day_overtime r acc.weekly_norm_used acc.weekly_ot_hours_used).1
    have hot : 0 ≤ (categorize_day_overtime r acc.weekly_norm_used acc.weekly_ot_hours_used).2.2 :=
      cdo_ot_nonneg r acc.weekly_norm_used acc.weekly_ot_hours_used
    apply ih (week_step acc r)
    · rw [hpo]
      linarith
    all_goals rw [hpb]
    · rw [hm1]
      rcases cdo_tiers r acc.weekly_norm_used acc.weekly_ot_hours_used with ⟨e1, -, -⟩ | ⟨e1, -, -⟩
      · obtain ⟨f1, -⟩ := aht_facts _ acc.weekly_ot_hours_used hot
        rw [e1]
        linarith
      · rw [e1]
        linarith
    · rw [hm1]
      rcases cdo_tiers r acc.weekly_norm_used acc.weekly_ot_hours_used with ⟨e1, -, -⟩ | ⟨e1, -, -⟩
      · obtain ⟨f1, f2, f3, -⟩ := aht_facts _ acc.weekly_ot_hours_used hot
        rw [e1]
        rcases lt_or_ge acc.weekly_ot_hours_used 2 with hu2 | hu2
        · rw [max_eq_right (le_of_lt hu2)] at f3
          linarith
        · rw [max_eq_left hu2] at f3
          linarith
      · rw [e1]
        linarith
    · rw [hm1, hpo]
      rcases cdo_tiers r acc.weekly_norm_used acc.weekly_ot_hours_used with ⟨e1, -, -⟩ | ⟨e1, -, -⟩
      · obtain ⟨f1, f2, -⟩ := aht_facts _ acc.weekly_ot_hours_used hot
        rw [e1]
        linarith
      · rw [e1]
        linarith
    · rw [hm2]
      rcases cdo_tiers r acc.weekly_norm_used acc.weekly_ot_hours_used with ⟨-, e2, -⟩ | ⟨-, e2, -⟩
      · obtain ⟨-, -, -, f4, -⟩ := aht_facts _ acc.weekly_ot_hours_used hot
        rw [e2]
        linarith
      · rw [e2]
        linarith
    · rw [hm2]
      rcases cdo_tiers r acc.weekly_norm_used acc.weekly_ot_hours_used with ⟨-, e2, -⟩ | ⟨-, e2, -⟩
      · obtain ⟨-, -, -, f4, f5, f6, f7, f8, f9, -⟩ := aht_facts _ acc.weekly_ot_hours_used hot
        rw [e2]
        rcases lt_or_ge acc.weekly_ot_hours_used 2 with hu2 | hu2
        · rw [max_eq_right (le_of_lt hu2)] at h7
          linarith
        · rcases lt_or_ge acc.weekly_ot_hours_used 4 with hu4 | hu4
          · rw [max_eq_left hu2] at h7
            have := f8 hu2 hu4
            linarith
          · have := f7 hu4
            linarith
      · rw [e2]
        linarith
    · rw [hm2, hpo]
      rcases cdo_tiers r acc.weekly_norm_used acc.weekly_ot_hours_used with ⟨-, e2, -⟩ | ⟨-, e2, -⟩
      · obtain ⟨-, -, -, f4, f5, f6, f7, f8, f9, -⟩ := aht_facts _ acc.weekly_ot_hours_used hot
        rw [e2]
        rcases lt_or_ge acc.weekly_ot_hours_used 2 with hu2 | hu2
        · rw [max_eq_right (le_of_lt hu2)] at h7
          have h9 := f9 hu2
          rcases le_or_lt (acc.weekly_ot_hours_used +
              (categorize_day_overtime r acc.weekly_norm_used acc.weekly_ot_hours_used).2.2) 2
            with hle | hlt
          · rw [max_eq_right (by linarith : (acc.weekly_ot_hours_used +
              (categorize_day_overtime r acc.weekly_norm_used acc.weekly_ot_hours_used).2.2) -
                2 ≤ 0)] at h9
            have hmr := le_max_right (acc.weekly_ot_hours_used +
              (categorize_day_overtime r acc.weekly_norm_used acc.weekly_ot_hours_used).2.2) (2 : ℚ)
            linarith
          · rw [max_eq_left (by linarith : (0 : ℚ) ≤ (acc.weekly_ot_hours_used +
              (categorize_day_overtime r acc.weekly_norm_used acc.weekly_ot_hours_used).2.2) -
                2)] at h9
            have hml := le_max_left (acc.weekly_ot_hours_used +
              (categorize_day_overtime r acc.weekly_norm_used acc.weekly_ot_hours_used).2.2) (2 : ℚ)
            linarith
        · rw [max_eq_left hu2] at h7
          have hml := le_max_left (acc.weekly_ot_hours_used +
            (categorize_day_overtime r acc.weekly_norm_used acc.weekly_ot_hours_used).2.2) (2 : ℚ)
          linarith
      · rw [e2]
        have hmono : max acc.weekly_ot_hours_used 2 ≤
            max (acc.weekly_ot_hours_used +
              (categorize_day_overtime r acc.weekly_norm_used acc.weekly_ot_hours_used).2.2) 2 :=
          max_le_max (by linarith) (le_refl 2)
        linarith
    · rw [hm3]
      rcases cdo_tiers r acc.weekly_norm_used acc.weekly_ot_hours_used with ⟨-, -, e3⟩ | ⟨-, -, e3⟩
      · obtain ⟨-, -, -, -, -, -, -, -, -, f10, -⟩ := aht_facts _ acc.weekly_ot_hours_used hot
        rw [e3]
        linarith
      · rw [e3]
        linarith

/-- Claim C4: every `WeeklySummary` produced by the overtime engine has
`normal_hours ≤ 37`; and a worker-week whose worked-plus-credited total is
exactly 37.00 hours emits zero hours in every overtime bucket. -/
theorem weekly_norm_cap (records : List DailyRecord) (s : WeeklySummary)
    (outs : List DailyOutput)
    (h : calculate_weekly_overtime records = some (s, outs)) :
    s.normal_hours ≤ 37 ∧
    ((∀ r ∈ records, 0 ≤ r.total_hours ∧ 0 ≤ r.credited_hours) →
      (records.map (fun r => r.total_hours + r.credited_hours)).sum = 37 →
      s.overtime_breakdown = {}) := by
  cases records with
  | nil => simp [calculate_weekly_overtime] at h
  | cons r l =>
    simp only [calculate_weekly_overtime, Option.some.injEq, Prod.mk.injEq] at h
    obtain ⟨hs, -⟩ := h
    constructor
    · rw [← hs]
      have hfold := week_fold_norm_le (r :: l)
        { weekly_total := 0, weekly_norm_used := 0, weekly_ot_hours_used := 0,
          weekly_breakdown := {}, outputs := [] }
        (by norm_num [WEEKLY_NORM_HOURS])
      have hround := round2_le_of_le _ 37
        (by norm_num [WEEKLY_NORM_HOURS] at hfold; exact hfold)
      exact_mod_cast hround
    · intro hnn hsum
      rw [← hs]
      have hfold := week_fold_no_ot (r :: l)
        { weekly_total := 0, weekly_norm_used := 0, weekly_ot_hours_used := 0,
          weekly_breakdown := {}, outputs := [] }
        hnn
        (by
          show (0 : ℚ) +
            (List.map (fun r => r.total_hours + r.credited_hours) (r :: l)).sum ≤
              WEEKLY_NORM_HOURS
          rw [hsum]
          norm_num [WEEKLY_NORM_HOURS])
      exact hfold.trans rfl

/-- Witness for C4 at a one-day week of exactly 37 worked hours. -/
theorem weekly_norm_cap_witness :
    (calculate_weekly_overtime wk37 = some (wk37_summary, wk37_outputs)) ∧
    wk37_summary.normal_hours ≤ 37 ∧
    ((∀ r ∈ wk37, 0 ≤ r.total_hours ∧ 0 ≤ r.credited_hours) →
      (wk37.map (fun r => r.total_hours + r.credited_hours)).sum = 37 →
      wk37_summary.overtime_breakdown = {}) := by
  have heq : calculate_weekly_overtime wk37 = some (wk37_summary, wk37_outputs) := by
    norm_num [wk37, wk37_summary, wk37_outputs, calculate_weekly_overtime, week_step,
      categorize_day_overtime, merge_overtime_breakdowns, calculate_legacy_overtime_values,
      WEEKLY_NORM_HOURS, detect_call_out_eligibility, detectAux, List.insertionSort,
      round2, pyRound]
  exact ⟨heq, weekly_norm_cap wk37 wk37_summary wk37_outputs heq⟩

/-- Claim C5: in every `WeeklySummary` the hourly tiering is a partition of
cumulative weekly overtime: `ot_weekday_hour_1_2 ≤ 2` and
`ot_weekday_hour_3_4 ≤ 2` per week (and all tiers are non-negative;
`ot_weekday_hour_5_plus` has no upper bound). -/
theorem weekly_tier_partition (records : List DailyRecord) (s : WeeklySummary)
    (outs : List DailyOutput)
    (h : calculate_weekly_overtime records = some (s, outs)) :
    0 ≤ s.overtime_breakdown.ot_weekday_hour_1_2 ∧
    s.overtime_breakdown.ot_weekday_hour_1_2 ≤ 2 ∧
    0 ≤ s.overtime_breakdown.ot_weekday_hour_3_4 ∧
    s.overtime_breakdown.ot_weekday_hour_3_4 ≤ 2 ∧
    0 ≤ s.overtime_breakdown.ot_weekday_hour_5_plus := by
  cases records with
  | nil => simp [calculate_weekly_overtime] at h
  | cons r l =>
    simp only [calculate_weekly_overtime, Option.some.injEq, Prod.mk.injEq] at h
    obtain ⟨hs, -⟩ := h
    have hfold := week_fold_tier_bounds (r :: l)
      { weekly_total := 0, weekly_norm_used := 0, weekly_ot_hours_used := 0,
        weekly_breakdown := {}, outputs := [] }
      (le_refl 0) (le_refl 0) (by norm_num) (le_refl 0) (le_refl 0) (by norm_num)
      (by rw [show max (0 : ℚ) 2 = 2 from max_eq_right (by norm_num)]; norm_num)
      (le_refl 0)
    rw [← hs]
    exact ⟨hfold.2.1, hfold.2.2.1, hfold.2.2.2.2.1, hfold.2.2.2.2.2.1,
      hfold.2.2.2.2.2.2.2⟩

/-- Witness for C5 at the one-day 37-hour week. -/
theorem weekly_tier_partition_witness :
    (calculate_weekly_overtime wk37 = some (wk37_summary, wk37_outputs)) ∧
    (0 ≤ wk37_summary.overtime_breakdown.ot_weekday_hour_1_2 ∧
     wk37_summary.overtime_breakdown.ot_weekday_hour_1_2 ≤ 2 ∧
     0 ≤ wk37_summary.overtime_breakdown.ot_weekday_hour_3_4 ∧
     wk37_summary.overtime_breakdown.ot_weekday_hour_3_4 ≤ 2 ∧
     0 ≤ wk37_summary.overtime_breakdown.ot_weekday_hour_5_plus) := by
  have heq : calculate_weekly_overtime wk37 = some (wk37_summary, wk37_outputs) := by
    norm_num [wk37, wk37_summary, wk37_outputs, calculate_weekly_overtime, week_step,
      categorize_day_overtime, merge_overtime_breakdowns, calculate_legacy_overtime_values,
      WEEKLY_NORM_HOURS, detect_call_out_eligibility, detectAux, List.insertionSort,
      round2, pyRound]
  exact ⟨heq, weekly_tier_partition wk37 wk37_summary wk37_outputs heq⟩

theorem sat_ne_weekday : ¬ (DayType.Saturday = DayType.Weekday) := by decide

set_option maxHeartbeats 2000000 in
/-- Claim C2 counterexample: for a worker-week of five 8-hour weekdays all
worked 07:00-15:00, the weekly hourly-tier buckets sum to 3 (the week's
weekday overtime) while the weekday time-of-day buckets sum to 8 (the full
span of the Friday entry), so the two views do not sum to the same total. -/
theorem weekday_two_views_counterexample :
    (calculate_weekly_overtime wk_five_8h).map
      (fun p => (p.1.overtime_breakdown.tierTotal, p.1.overtime_breakdown.schedTotal)) =
      some (3, 8) ∧ (3 : ℚ) ≠ 8 := by
  constructor
  · norm_num [wk_five_8h, wd8, calculate_weekly_overtime, week_step, categorize_day_overtime,
      sched_step, entry_accumulate, categorize_entry_overtime, apply_hourly_thresholds,
      merge_overtime_breakdowns, calculate_legacy_overtime_values,
      calculate_overtime_day_night_split, minutes_to_hours, WEEKLY_NORM_HOURS,
      OT_DAY_START, OT_DAY_END, OvertimeBreakdown.tierTotal, OvertimeBreakdown.schedTotal,
      detect_call_out_eligibility, detectAux, List.insertionSort, List.orderedInsert,
      entryLE, CALL_OUT_MORNING_END, CALL_OUT_EVENING_START, CALL_OUT_CONTINUATION_START]
  · norm_num

set_option maxHeartbeats 2000000 in
/-- Claim C3 counterexample: in the week of four 8-hour weekdays followed
by an 8-hour Saturday (10:00-18:00), the Saturday day output's eleven
buckets sum to 8 (the full worked span) while the day's overtime
`max(0, total − normal)` is 3: the emitted breakdown does not sum to the
day's overtime hours. -/
theorem day_breakdown_sum_counterexample :
    (calculate_weekly_overtime wk_sat).map
      (fun p => p.2.map
        (fun o => (o.overtime_breakdown.total, max 0 (o.total_hours - o.normal_hours)))) =
      some [(0, 0), (0, 0), (0, 0), (0, 0), (8, 3)] ∧ (8 : ℚ) ≠ 3 := by
  constructor
  · norm_num [wk_sat, wd8, satRec, calculate_weekly_overtime, week_step,
      categorize_day_overtime, sched_step, entry_accumulate, categorize_entry_overtime,
      apply_hourly_thresholds, merge_overtime_breakdowns, calculate_legacy_overtime_values,
      calculate_overtime_day_night_split, minutes_to_hours, WEEKLY_NORM_HOURS,
      OT_DAY_START, OT_DAY_END, OvertimeBreakdown.total, round2, pyRound, sat_ne_weekday,
      detect_call_out_eligibility, detectAux, List.insertionSort, List.orderedInsert,
      entryLE, CALL_OUT_MORNING_END, CALL_OUT_EVENING_START, CALL_OUT_CONTINUATION_START]
  · norm_num

/-- Claim C1: every pay-part emitted on the wire by the sync endpoint
(`POST /danlon/sync/{session_id}` followed by `create_payparts`) carries
`units` equal to `round(hours × 100)` as an integer (centesimal encoding,
1 hour = 100 units) where `hours` is the pay-part's hour value, and the
call-out pay-part carries `amount` equal to the payment rounded to a whole
integer DKK.  The hypotheses state that the row's `normal_hours` and
`call_out_payment` are fixed points of the router's `round(_, 4)` and
`round(_, 2)` — true of every value the engine produces, since it stores
`normal_hours` rounded to 2 decimals and the payment is 0.0 or 750.0. -/
theorem sync_paypart_encoding (resolve : String → Option String)
    (normal_code overtime_code callout_code employee_id : String) (row : DailyOutput)
    (hr : resolve row.worker = some employee_id)
    (hn : round4 row.normal_hours = row.normal_hours)
    (hp : round2 row.call_out_payment = row.call_out_payment) :
    sync_row_wire_payparts resolve normal_code overtime_code callout_code row =
      (if row.normal_hours ≤ 0 ∧ round4 (sum_overtime row.overtime_breakdown) ≤ 0 ∧
          row.call_out_applied = false then []
       else
        (if 0 < row.normal_hours then
          [{ employeeId := employee_id, code := normal_code,
             units := some (pyRound (row.normal_hours * 100)) }]
         else []) ++
        (if 0 < round4 (sum_overtime row.overtime_breakdown) then
          [{ employeeId := employee_id, code := overtime_code,
             units := some (pyRound (round4 (sum_overtime row.overtime_breakdown) * 100)) }]
         else []) ++
        (if row.call_out_applied = true ∧ 0 < row.call_out_payment then
          [{ employeeId := employee_id, code := callout_code,
             amount := some (pyRound row.call_out_payment) }]
         else [])) := by
  simp only [sync_row_wire_payparts, build_row_payparts]
  rw [hr]
  split_ifs with h1 h2 h3 h4
  all_goals simp [paypart_to_gql, hn, hp]

/-- Witness for C1: the row with 7.5 normal hours, 2 overtime hours and an
applied 750 DKK call-out, resolved to employee `E1`. -/
theorem sync_paypart_encoding_witness :
    (resolve_c1 row_c1.worker = some "E1" ∧
     round4 row_c1.normal_hours = row_c1.normal_hours ∧
     round2 row_c1.call_out_payment = row_c1.call_out_payment) ∧
    sync_row_wire_payparts resolve_c1 "N1" "O1" "C1" row_c1 =
      (if row_c1.normal_hours ≤ 0 ∧ round4 (sum_overtime row_c1.overtime_breakdown) ≤ 0 ∧
          row_c1.call_out_applied = false then []
       else
        (if 0 < row_c1.normal_hours then
          [{ employeeId := "E1", code := "N1",
             units := some (pyRound (row_c1.normal_hours * 100)) }]
         else []) ++
        (if 0 < round4 (sum_overtime row_c1.overtime_breakdown) then
          [{ employeeId := "E1", code := "O1",
             units := some (pyRound (round4 (sum_overtime row_c1.overtime_breakdown) * 100)) }]
         else []) ++
        (if row_c1.call_out_applied = true ∧ 0 < row_c1.call_out_payment then
          [{ employeeId := "E1", code := "C1",
             amount := some (pyRound row_c1.call_out_payment) }]
         else [])) := by
  have hr : resolve_c1 row_c1.worker = some "E1" := rfl
  have hn : round4 row_c1.normal_hours = row_c1.normal_hours := by
    norm_num [row_c1, round4, pyRound]
  have hp : round2 row_c1.call_out_payment = row_c1.call_out_payment := by
    norm_num [row_c1, round2, pyRound]
  exact ⟨⟨hr, hn, hp⟩,
    sync_paypart_encoding resolve_c1 "N1" "O1" "C1" "E1" row_c1 hr hn hp⟩
